import Mathlib

/-!
Shallow embedding of `src/no-dead-link.js` (textlint-rule-no-dead-link).

The rule's effects (HTTP fetch, filesystem access, URL parsing/resolution,
glob matching, the linted file's path) are modelled as explicit oracles
collected in an `Env` record; the rule's own logic (`isRelative`, `isLocal`,
`isIgnored`, `isAliveURI`, `isAliveLocalFile`, the `lint` closure and the
`Document:exit` batch) is translated function by function from the source.
JavaScript truthiness on the string options (`opts.baseURI || filePath`,
`if (!base)`) is modelled explicitly (`jsTruthy`, `jsOrStr`), and the
`Number` result of `String.prototype.indexOf` (with its `-1` sentinel) is
modelled over `Int` (`jsIndexOf`, `jsOrZero`).
-/

namespace NoDeadLink

/-- HTTP request method used by the probe (the source only uses these two). -/
inductive Method where
  | HEAD
  | GET
deriving DecidableEq

/-- The `redirect` option passed to `fetch`: `manual` or `follow`. -/
inductive RedirectMode where
  | manual
  | follow
deriving DecidableEq

/-- The part of a fetch `Response` the source reads: `status`, `statusText`,
`url` (the final resolved URL) — `ok` is derived, as in the fetch spec. -/
structure Response where
  status : Nat
  statusText : String
  url : String
deriving DecidableEq

/-- Derived `Response.ok` per the fetch specification: status in the 200–299 range. -/
def Response.ok (r : Response) : Bool :=
  decide (200 ≤ r.status ∧ r.status < 300)

/-- Network oracle: what `fetch(uri, {method, redirect})` yields — a response,
or a thrown exception carrying its message string. -/
def Net := String → Method → RedirectMode → Except String Response

/-- Filesystem oracle: what `fs.access(path)` yields — `none` on success,
`some message` when it throws. -/
def FileSystem := String → Option String

/-- The result objects produced by `isAliveURI` / `isAliveLocalFile`. Fields
the source leaves absent (`redirected`, `redirectTo`, `message`) default to
falsy placeholders, matching how the destructuring site treats `undefined`. -/
structure ProbeResult where
  ok : Bool
  redirected : Bool := false
  redirectTo : String := ""
  message : String := ""
deriving DecidableEq

/-- Source function `isRedirect`: the five HTTP redirect status codes. -/
def isRedirect (code : Nat) : Bool :=
  code == 301 || code == 302 || code == 303 || code == 307 || code == 308

/-- Ranking used to show the HEAD→GET retry recursion terminates. -/
def Method.rank : Method → Nat
  | Method.HEAD => 1
  | Method.GET => 0

/-- Source function `isAliveURI`: probe `uri` with `method` and manual
redirects; on a redirect status re-fetch with redirects followed and report
the original status line; on a non-redirect failure or a thrown exception
retry once with GET when the method was HEAD. -/
def isAliveURI (net : Net) (uri : String) (method : Method) : ProbeResult :=
  match net uri method RedirectMode.manual with
  | Except.error ex =>
    if h : method = Method.HEAD then
      isAliveURI net uri Method.GET
    else
      { ok := false, message := ex }
  | Except.ok res =>
    if isRedirect res.status then
      match net uri method RedirectMode.follow with
      | Except.ok finalRes =>
        { ok := finalRes.ok, redirected := true, redirectTo := finalRes.url,
          message := toString res.status ++ " " ++ res.statusText }
      | Except.error ex =>
        if h : method = Method.HEAD then
          isAliveURI net uri Method.GET
        else
          { ok := false, message := ex }
    else if h : res.ok = false ∧ method = Method.HEAD then
      isAliveURI net uri Method.GET
    else
      { ok := res.ok, message := toString res.status ++ " " ++ res.statusText }
termination_by method.rank
decreasing_by
  all_goals simp_all [Method.rank]

/-- Characters kept out of the kept part of a local path: the
`filePath.replace(/[?#].*?$/, '')` strip in `isAliveLocalFile`. -/
def takeUntil (stop : List Char) : List Char → List Char
  | [] => []
  | c :: cs => if c ∈ stop then [] else c :: takeUntil stop cs

/-- Model of `filePath.replace(/[?#].*?$/, '')`: drop everything from the
first `?` or `#` on. (The model assumes the path has no newline, where the
regex's dot-excludes-newline subtlety would matter.) -/
def stripQueryFragment (filePath : String) : String :=
  String.mk (takeUntil ['?', '#'] filePath.data)

/-- Source function `isAliveLocalFile`: strip the query/fragment suffix,
attempt `fs.access` once; success is `{ok: true}`, a thrown exception is
`{ok: false}` with the exception's message. -/
def isAliveLocalFile (fileSystem : FileSystem) (filePath : String) : ProbeResult :=
  match fileSystem (stripQueryFragment filePath) with
  | none => { ok := true }
  | some ex => { ok := false, message := ex }

/-- True at the characters that end the host part of a URL. -/
def hostEnd (c : Char) : Bool := c == '/' || c == '?' || c == '#'

/-- Split a character list at the first occurrence of `//`. -/
def splitOnSlashSlash : List Char → Option (List Char × List Char)
  | [] => none
  | c :: rest =>
    if c = '/' ∧ rest.head? = some '/' then some ([], rest.tail)
    else
      match splitOnSlashSlash rest with
      | none => none
      | some (pre, post) => some (c :: pre, post)

/-- Model of the `get-url-origin` dependency: the scheme part up to and
including `//`, then the host (with port) up to the first `/`, `?` or `#`;
the path and query are discarded. -/
def getURLOrigin (uri : String) : String :=
  match splitOnSlashSlash uri.data with
  | none => ""
  | some (scheme, rest) =>
    String.mk (scheme ++ '/' :: '/' :: rest.takeWhile (fun c => !hostEnd c))

/-- The capabilities the rule consumes, as oracles: `URL.parse(uri).host`
(`none` for JavaScript `null`), `path.isAbsolute`, `minimatch(uri, pattern)`,
`URL.resolve(base, uri)`, the network, the filesystem, and `getFilePath()`
(`none` for `undefined`). -/
structure Env where
  parseHost : String → Option String
  isAbsolute : String → Bool
  minimatch : String → String → Bool
  urlResolve : String → String → String
  net : Net
  fsAccess : FileSystem
  filePath : Option String

/-- Source function `isRelative`: the parsed host is `null` or the empty string. -/
def isRelative (env : Env) (uri : String) : Bool :=
  match env.parseHost uri with
  | none => true
  | some host => host == ""

/-- Source function `isLocal`: an absolute filesystem path, or relative. -/
def isLocal (env : Env) (uri : String) : Bool :=
  if env.isAbsolute uri then true else isRelative env uri

/-- Source function `isIgnored`: some pattern in `ignore` matches the URI. -/
def isIgnored (env : Env) (uri : String) (ignore : List String) : Bool :=
  ignore.any (fun pattern => env.minimatch uri pattern)

/-- The options record after merging `DEFAULT_OPTIONS` with user overrides. -/
structure LintConfig where
  checkRelative : Bool := true
  baseURI : Option String := none
  ignore : List String := []
  preferGET : List String := []

/-- JavaScript truthiness of a possibly-absent string: `null`/`undefined`
and the empty string are falsy. -/
def jsTruthy : Option String → Bool
  | none => false
  | some s => !s.isEmpty

/-- JavaScript `a || b` on possibly-absent strings. -/
def jsOrStr (a b : Option String) : Option String :=
  if jsTruthy a then a else b

/-- One URI occurrence accumulated during traversal (`{node, uri, index}`;
the opaque `node` reference only anchors the report and is omitted). -/
structure Occurrence where
  uri : String
  index : Int
deriving DecidableEq

/-- The fix produced by `fixer.replaceTextRange([start, end], text)`. -/
structure Fix where
  rangeStart : Int
  rangeEnd : Int
  text : String
deriving DecidableEq

/-- One reported problem: the `RuleError` message, its `index`, and the
optional fix. -/
structure Diagnostic where
  message : String
  index : Int
  fix : Option Fix := none
deriving DecidableEq

/-- The message reported when a relative URI has no resolution base. -/
def unresolvedMessage : String :=
  "Unable to resolve the relative URI. Please check if the base URI is correctly specified."

/-- Outcome of the relative-URI block at the top of `lint`. -/
inductive ResolveOutcome where
  | skip
  | failed (d : Diagnostic)
  | resolved (uri : String)
deriving DecidableEq

/-- The relative-URI block of `lint`: when the URI is relative, return
early if `checkRelative` is off; take `opts.baseURI || filePath` as the
base; report the resolution error if that is falsy; otherwise resolve. -/
def relativeStep (env : Env) (opts : LintConfig) (uri : String) (index : Int) :
    ResolveOutcome :=
  if isRelative env uri then
    if !opts.checkRelative then ResolveOutcome.skip
    else
      match jsOrStr opts.baseURI env.filePath with
      | none => ResolveOutcome.failed { message := unresolvedMessage, index := index }
      | some base =>
        if base.isEmpty then
          ResolveOutcome.failed { message := unresolvedMessage, index := index }
        else
          ResolveOutcome.resolved (env.urlResolve base uri)
  else ResolveOutcome.resolved uri

/-- The method selection in `lint`: GET when some `preferGET` entry has the
same origin as the URI, HEAD otherwise. -/
def selectMethod (preferGET : List String) (uri : String) : Method :=
  if 0 < (preferGET.filter (fun origin => getURLOrigin uri == getURLOrigin origin)).length
  then Method.GET
  else Method.HEAD

/-- The reporting tail of `lint`: a dead-link report when `ok` is false, a
redirect report with a range-replacement fix when redirected, else nothing. -/
def reportResult (result : ProbeResult) (uri : String) (index : Int) :
    List Diagnostic :=
  if !result.ok then
    [{ message := uri ++ " is dead. (" ++ result.message ++ ")", index := index }]
  else if result.redirected then
    [{ message := uri ++ " is redirected to " ++ result.redirectTo ++ ". ("
         ++ result.message ++ ")",
       index := index,
       fix := some { rangeStart := index, rangeEnd := index + (uri.length : Int),
                     text := result.redirectTo } }]
  else []

/-- The `lint` closure: skip ignored URIs, run the relative-URI block, probe
the (possibly resolved) URI locally or remotely, and report the result. -/
def lintOne (env : Env) (opts : LintConfig) (occ : Occurrence) : List Diagnostic :=
  if isIgnored env occ.uri opts.ignore then []
  else
    match relativeStep env opts occ.uri occ.index with
    | ResolveOutcome.skip => []
    | ResolveOutcome.failed d => [d]
    | ResolveOutcome.resolved uri =>
      let result :=
        if isLocal env uri then isAliveLocalFile env.fsAccess uri
        else isAliveURI env.net uri (selectMethod opts.preferGET uri)
      reportResult result uri occ.index

/-- The `Document:exit` handler: run `lint` over every accumulated
occurrence, collecting all their reports. -/
def lintDocument (env : Env) (opts : LintConfig) (uris : List Occurrence) :
    List Diagnostic :=
  uris.flatMap (lintOne env opts)

/-- Model of `hay.indexOf(needle)` from position `i`: the first index where
`needle` occurs, or `-1`. -/
def jsIndexOfAux (needle : List Char) : List Char → Nat → Int
  | [], i => if needle.isPrefixOf [] then (i : Int) else -1
  | c :: rest, i =>
    if needle.isPrefixOf (c :: rest) then (i : Int)
    else jsIndexOfAux needle rest (i + 1)

/-- Model of JavaScript `hay.indexOf(needle)`. -/
def jsIndexOf (hay needle : String) : Int :=
  jsIndexOfAux needle.data hay.data 0

/-- JavaScript `x || 0` on a number `x`: `0` when `x` is falsy (that is,
zero), `x` itself otherwise. -/
def jsOrZero (x : Int) : Int :=
  if x == 0 then 0 else x

/-- The `Syntax.Link` handler's offset computation:
`node.raw.indexOf(node.url) || 0`. -/
def linkIndex (raw url : String) : Int :=
  jsOrZero (jsIndexOf raw url)

/-! ### A concrete environment used to exercise the theorems -/

/-- URI strings the test host-parser treats as host-less (relative). -/
def relativeURIs : List String := ["./foo", "docs/page.md", ""]

/-- Concrete network oracle: a URI that redirects (301 then 200), one whose
HEAD gets 404 but whose GET gets 200, one that throws on both methods, one
that is 404 on both methods, and a default that answers 200. -/
def testNet : Net := fun uri method mode =>
  if uri = "https://redirect.example/a" ∨ uri = "https://base.example/./foo" then
    match mode with
    | RedirectMode.manual =>
      Except.ok { status := 301, statusText := "Moved Permanently", url := uri }
    | RedirectMode.follow =>
      Except.ok { status := 200, statusText := "OK", url := "https://final.example/b" }
  else if uri = "https://deadhead.example/x" then
    match method with
    | Method.HEAD => Except.ok { status := 404, statusText := "Not Found", url := uri }
    | Method.GET => Except.ok { status := 200, statusText := "OK", url := uri }
  else if uri = "https://throws.example/y" then
    match method with
    | Method.HEAD => Except.error "HEAD boom"
    | Method.GET => Except.error "GET boom"
  else if uri = "https://dead.example/x" then
    Except.ok { status := 404, statusText := "Not Found", url := uri }
  else
    Except.ok { status := 200, statusText := "OK", url := uri }

/-- Concrete environment: host-less parses for `relativeURIs`, leading-slash
absoluteness, literal-equality glob matching, concatenating resolution,
`testNet`, a filesystem where only `/missing/file` is missing, and a linted
file at `/base/doc.md`. -/
def testEnv : Env where
  parseHost := fun uri => if relativeURIs.contains uri then none else some "example.com"
  isAbsolute := fun uri =>
    match uri.data with
    | '/' :: _ => true
    | _ => false
  minimatch := fun uri pattern => uri == pattern
  urlResolve := fun base uri => base ++ uri
  net := testNet
  fsAccess := fun path =>
    if path = "/missing/file" then
      some "ENOENT: no such file or directory, access /missing/file"
    else none
  filePath := some "/base/doc.md"

/-! ### Helper lemmas -/

theorem isLocal_false_iff (env : Env) (uri : String) :
    isLocal env uri = false ↔ env.isAbsolute uri = false ∧ isRelative env uri = false := by
  unfold isLocal
  cases h : env.isAbsolute uri <;> simp

theorem aliveURI_redirect_eq (net : Net) (uri : String) (method : Method)
    (res finalRes : Response)
    (h1 : net uri method RedirectMode.manual = Except.ok res)
    (h2 : isRedirect res.status = true)
    (h3 : net uri method RedirectMode.follow = Except.ok finalRes) :
    isAliveURI net uri method =
      { ok := finalRes.ok, redirected := true, redirectTo := finalRes.url,
        message := toString res.status ++ " " ++ res.statusText } := by
  unfold isAliveURI
  simp [h1, h2, h3]

theorem aliveURI_manual_error_head (net : Net) (uri : String) (e : String)
    (h1 : net uri Method.HEAD RedirectMode.manual = Except.error e) :
    isAliveURI net uri Method.HEAD = isAliveURI net uri Method.GET := by
  conv_lhs => rw [isAliveURI.eq_def]
  simp [h1]

theorem aliveURI_manual_error_get (net : Net) (uri : String) (e : String)
    (h1 : net uri Method.GET RedirectMode.manual = Except.error e) :
    isAliveURI net uri Method.GET = { ok := false, message := e } := by
  conv_lhs => rw [isAliveURI.eq_def]
  simp [h1]

theorem aliveURI_notOk_head (net : Net) (uri : String) (res : Response)
    (h1 : net uri Method.HEAD RedirectMode.manual = Except.ok res)
    (h2 : isRedirect res.status = false)
    (h3 : Response.ok res = false) :
    isAliveURI net uri Method.HEAD = isAliveURI net uri Method.GET := by
  conv_lhs => rw [isAliveURI.eq_def]
  simp [h1, h2, h3]

theorem aliveURI_plain_eq (net : Net) (uri : String) (method : Method) (res : Response)
    (h1 : net uri method RedirectMode.manual = Except.ok res)
    (h2 : isRedirect res.status = false)
    (h3 : ¬(Response.ok res = false ∧ method = Method.HEAD)) :
    isAliveURI net uri method =
      { ok := res.ok, message := toString res.status ++ " " ++ res.statusText } := by
  unfold isAliveURI
  simp [h1, h2, h3]

theorem lintOne_remote_eq (env : Env) (opts : LintConfig) (occ : Occurrence)
    (hIgn : isIgnored env occ.uri opts.ignore = false)
    (hLoc : isLocal env occ.uri = false) :
    lintOne env opts occ =
      reportResult (isAliveURI env.net occ.uri (selectMethod opts.preferGET occ.uri))
        occ.uri occ.index := by
  obtain ⟨hAbs, hRel⟩ := (isLocal_false_iff env occ.uri).mp hLoc
  unfold lintOne relativeStep
  simp [hIgn, hRel, hLoc]

theorem splitOnSlashSlash_prepend (scheme : List Char) (rest : List Char)
    (h : ∀ c ∈ scheme, c ≠ '/') :
    splitOnSlashSlash (scheme ++ '/' :: '/' :: rest) = some (scheme, rest) := by
  induction scheme with
  | nil => simp [splitOnSlashSlash]
  | cons c cs ih =>
    have hc : c ≠ '/' := h c (List.mem_cons_self _ _)
    have ih' := ih (fun x hx => h x (List.mem_cons_of_mem _ hx))
    simp [splitOnSlashSlash, hc, ih']

theorem takeWhile_host_append (host : List Char) (sep : Char) (tail : List Char)
    (hh : ∀ c ∈ host, hostEnd c = false) (hs : hostEnd sep = true) :
    List.takeWhile (fun c => !hostEnd c) (host ++ sep :: tail) = host := by
  induction host with
  | nil => simp [List.takeWhile_cons, hs]
  | cons c cs ih =>
    have hc := hh c (List.mem_cons_self _ _)
    have ih' := ih (fun x hx => hh x (List.mem_cons_of_mem _ hx))
    simp [List.takeWhile_cons, hc, ih']

theorem takeWhile_host_all (host : List Char)
    (hh : ∀ c ∈ host, hostEnd c = false) :
    List.takeWhile (fun c => !hostEnd c) host = host := by
  induction host with
  | nil => simp
  | cons c cs ih =>
    have hc := hh c (List.mem_cons_self _ _)
    have ih' := ih (fun x hx => hh x (List.mem_cons_of_mem _ hx))
    simp [List.takeWhile_cons, hc, ih']

theorem takeUntil_append (stop : List Char) (pre : List Char) (sep : Char)
    (tail : List Char)
    (hpre : ∀ c ∈ pre, c ∉ stop) (hsep : sep ∈ stop) :
    takeUntil stop (pre ++ sep :: tail) = pre := by
  induction pre with
  | nil => simp [takeUntil, hsep]
  | cons c cs ih =>
    have hc := hpre c (List.mem_cons_self _ _)
    have ih' := ih (fun x hx => hpre x (List.mem_cons_of_mem _ hx))
    simp [takeUntil, hc, ih']

theorem relativeStep_resolves (env : Env) (opts : LintConfig) (uri : String)
    (index : Int) (b : String)
    (hRel : isRelative env uri = true)
    (hChk : opts.checkRelative = true)
    (hBase : jsOrStr opts.baseURI env.filePath = some b)
    (hb : b.isEmpty = false) :
    relativeStep env opts uri index = ResolveOutcome.resolved (env.urlResolve b uri) := by
  unfold relativeStep
  simp [hRel, hChk, hBase, hb]

theorem lintOne_resolvedRemote_eq (env : Env) (opts : LintConfig) (occ : Occurrence)
    (u : String)
    (hIgn : isIgnored env occ.uri opts.ignore = false)
    (hRes : relativeStep env opts occ.uri occ.index = ResolveOutcome.resolved u)
    (hLoc : isLocal env u = false) :
    lintOne env opts occ
      = reportResult (isAliveURI env.net u (selectMethod opts.preferGET u)) u occ.index := by
  unfold lintOne
  simp [hIgn, hRes, hLoc]

theorem lintOne_resolvedLocal_eq (env : Env) (opts : LintConfig) (occ : Occurrence)
    (u : String)
    (hIgn : isIgnored env occ.uri opts.ignore = false)
    (hRes : relativeStep env opts occ.uri occ.index = ResolveOutcome.resolved u)
    (hLoc : isLocal env u = true) :
    lintOne env opts occ
      = reportResult (isAliveLocalFile env.fsAccess u) u occ.index := by
  unfold lintOne
  simp [hIgn, hRes, hLoc]

/-! ### Claim theorems -/

/-- C8: `isRelative` is true iff the parsed host is empty or absent;
`isLocal` is true iff the URI is an absolute filesystem path or relative;
a URI with a non-empty host and no absolute-path form is remote. -/
theorem C8_classifier (env : Env) (uri : String) :
    (isRelative env uri = true ↔ env.parseHost uri = none ∨ env.parseHost uri = some "")
    ∧ (isLocal env uri = true ↔ env.isAbsolute uri = true ∨ isRelative env uri = true)
    ∧ (∀ host, env.parseHost uri = some host → host ≠ "" → env.isAbsolute uri = false →
        isLocal env uri = false) := by
  refine ⟨?_, ?_, ?_⟩
  · unfold isRelative
    cases h : env.parseHost uri <;> simp
  · unfold isLocal
    cases h : env.isAbsolute uri <;> simp
  · intro host hh hne habs
    unfold isLocal isRelative
    simp [habs, hh, hne]

/-- C8 witness: the classifier at concrete URIs of the test environment. -/
theorem C8_classifier_witness :
    isLocal testEnv "https://example.com/path" = false
    ∧ isRelative testEnv "./foo" = true := by
  constructor
  · exact (C8_classifier testEnv "https://example.com/path").2.2 "example.com"
      (by decide) (by decide) (by decide)
  · exact (C8_classifier testEnv "./foo").1.mpr (Or.inl (by decide))

/-- C7: a URI matched by some glob pattern in the ignore list is never
probed and never reported, whatever the network and filesystem say; with
the default empty ignore list no URI is ignored. -/
theorem C7_ignored_never_reported (env : Env) (opts : LintConfig) (occ : Occurrence) :
    ((∃ p ∈ opts.ignore, env.minimatch occ.uri p = true) →
      ∀ net fileSystem,
        lintOne { env with net := net, fsAccess := fileSystem } opts occ = [])
    ∧ isIgnored env occ.uri [] = false := by
  constructor
  · rintro ⟨p, hp, hm⟩ net fileSystem
    have hIgn : isIgnored { env with net := net, fsAccess := fileSystem }
        occ.uri opts.ignore = true := by
      unfold isIgnored
      simp only [List.any_eq_true]
      exact ⟨p, hp, hm⟩
    unfold lintOne
    simp [hIgn]
  · rfl

/-- C7 witness: a concretely ignored URI produces no diagnostics. -/
theorem C7_ignored_never_reported_witness :
    lintOne { testEnv with net := testEnv.net, fsAccess := testEnv.fsAccess }
      { ignore := ["https://dead.example/x"] } ⟨"https://dead.example/x", 0⟩ = [] :=
  (C7_ignored_never_reported testEnv { ignore := ["https://dead.example/x"] }
      ⟨"https://dead.example/x", 0⟩).1
    ⟨"https://dead.example/x", by simp, by decide⟩ testEnv.net testEnv.fsAccess

/-- C5: the end-of-document batch checks every accumulated occurrence, and
each occurrence's diagnostics are exactly its own lint's output, unaffected
by the outcomes of the other occurrences. -/
theorem C5_batch_isolates_occurrences (env : Env) (opts : LintConfig)
    (xs ys : List Occurrence) (o : Occurrence) :
    lintDocument env opts (xs ++ o :: ys)
      = lintDocument env opts xs ++ lintOne env opts o ++ lintDocument env opts ys := by
  unfold lintDocument
  simp [List.append_assoc]

/-- C4: the link handler's offset is `raw.indexOf(url) || 0`; when the URL
occurs in the raw text this is its position, but on a miss `indexOf` yields
`-1`, which is truthy in JavaScript, so the offset is `-1` — the `|| 0`
fallback the specification describes never fires. -/
theorem C4_link_offset_eval :
    linkIndex "[text](https://example.com)" "https://example.com" = 7
    ∧ linkIndex "abc" "zzz" = -1
    ∧ ((-1 : Int) = 0 → False) := by
  decide

/-- C1: when the first (manual-redirect) probe of a remote URI answers with
a redirect status, the probe is re-issued with redirects followed; the
result's `ok` is the final response's success flag, it is marked redirected,
its target is the final resolved URL, and its message is the original
redirect status line; when the final response succeeds, the emitted
diagnostic's fix replaces the URI with the final URL and its message embeds
the original status. -/
theorem C1_redirect_roundtrip (env : Env) (opts : LintConfig) (occ : Occurrence)
    (res finalRes : Response)
    (hIgn : isIgnored env occ.uri opts.ignore = false)
    (hLoc : isLocal env occ.uri = false)
    (hMan : env.net occ.uri (selectMethod opts.preferGET occ.uri) RedirectMode.manual
              = Except.ok res)
    (hRed : isRedirect res.status = true)
    (hFol : env.net occ.uri (selectMethod opts.preferGET occ.uri) RedirectMode.follow
              = Except.ok finalRes) :
    isAliveURI env.net occ.uri (selectMethod opts.preferGET occ.uri)
        = { ok := finalRes.ok, redirected := true, redirectTo := finalRes.url,
            message := toString res.status ++ " " ++ res.statusText }
    ∧ (finalRes.ok = true →
        lintOne env opts occ
          = [{ message := occ.uri ++ " is redirected to " ++ finalRes.url ++ ". ("
                 ++ toString res.status ++ " " ++ res.statusText ++ ")",
               index := occ.index,
               fix := some { rangeStart := occ.index,
                             rangeEnd := occ.index + (occ.uri.length : Int),
                             text := finalRes.url } }]) := by
  have hRel : isRelative env occ.uri = false :=
    ((isLocal_false_iff env occ.uri).mp hLoc).2
  have halive := aliveURI_redirect_eq _ _ _ _ _ hMan hRed hFol
  refine ⟨halive, fun hok => ?_⟩
  have hRes : relativeStep env opts occ.uri occ.index
      = ResolveOutcome.resolved occ.uri := by
    unfold relativeStep
    simp [hRel]
  rw [lintOne_resolvedRemote_eq env opts occ occ.uri hIgn hRes hLoc, halive]
  unfold reportResult
  simp [hok, String.append_assoc]

/-- C1 witness: a URI answering 301 then 200 yields the redirect diagnostic
with the final URL as the fix text and the original 301 status line. -/
theorem C1_redirect_roundtrip_witness :
    lintOne testEnv {} ⟨"https://redirect.example/a", 3⟩
      = [{ message := "https://redirect.example/a is redirected to " ++
             "https://final.example/b. (301 Moved Permanently)",
           index := 3,
           fix := some { rangeStart := 3, rangeEnd := 29,
                         text := "https://final.example/b" } }] := by
  have h := (C1_redirect_roundtrip testEnv {} ⟨"https://redirect.example/a", 3⟩
    { status := 301, statusText := "Moved Permanently", url := "https://redirect.example/a" }
    { status := 200, statusText := "OK", url := "https://final.example/b" }
    rfl (by decide) rfl (by decide) rfl).2 (by decide)
  exact h.trans (by decide)

/-- C2: a remote HEAD probe that gets a non-redirect non-2xx response, or
that throws, is retried as the same probe with GET; if the GET probe throws,
the result is not-ok with the GET attempt's exception text; if the GET probe
gets a successful non-redirect response, no diagnostic is emitted. -/
theorem C2_head_get_fallback (env : Env) (opts : LintConfig) (occ : Occurrence)
    (hIgn : isIgnored env occ.uri opts.ignore = false)
    (hLoc : isLocal env occ.uri = false)
    (hMeth : selectMethod opts.preferGET occ.uri = Method.HEAD)
    (hHead : (∃ res, env.net occ.uri Method.HEAD RedirectMode.manual = Except.ok res
                ∧ isRedirect res.status = false ∧ Response.ok res = false)
             ∨ (∃ e, env.net occ.uri Method.HEAD RedirectMode.manual = Except.error e)) :
    isAliveURI env.net occ.uri Method.HEAD = isAliveURI env.net occ.uri Method.GET
    ∧ (∀ e2, env.net occ.uri Method.GET RedirectMode.manual = Except.error e2 →
        isAliveURI env.net occ.uri Method.HEAD
          = { ok := false, redirected := false, redirectTo := "", message := e2 })
    ∧ (∀ res2, env.net occ.uri Method.GET RedirectMode.manual = Except.ok res2 →
        isRedirect res2.status = false → Response.ok res2 = true →
        lintOne env opts occ = []) := by
  have hRel : isRelative env occ.uri = false :=
    ((isLocal_false_iff env occ.uri).mp hLoc).2
  have hretry : isAliveURI env.net occ.uri Method.HEAD
      = isAliveURI env.net occ.uri Method.GET := by
    rcases hHead with ⟨res, h1, h2, h3⟩ | ⟨e, h1⟩
    · exact aliveURI_notOk_head _ _ _ h1 h2 h3
    · exact aliveURI_manual_error_head _ _ _ h1
  refine ⟨hretry, fun e2 h => ?_, fun res2 h1 h2 h3 => ?_⟩
  · rw [hretry, aliveURI_manual_error_get _ _ _ h]
  · have hRes : relativeStep env opts occ.uri occ.index
        = ResolveOutcome.resolved occ.uri := by
      unfold relativeStep
      simp [hRel]
    rw [lintOne_resolvedRemote_eq env opts occ occ.uri hIgn hRes hLoc, hMeth, hretry,
      aliveURI_plain_eq _ _ _ _ h1 h2 (by simp [h3])]
    unfold reportResult
    simp [h3]

/-- C2 witness: a URI whose HEAD gets 404 but whose GET gets 200 produces no
diagnostic, and a URI that throws on both methods ends with the GET
attempt's exception text. -/
theorem C2_head_get_fallback_witness :
    lintOne testEnv {} ⟨"https://deadhead.example/x", 0⟩ = []
    ∧ isAliveURI testEnv.net "https://throws.example/y" Method.HEAD
        = { ok := false, redirected := false, redirectTo := "", message := "GET boom" } := by
  constructor
  · exact (C2_head_get_fallback testEnv {} ⟨"https://deadhead.example/x", 0⟩
      rfl (by decide) rfl
      (Or.inl ⟨{ status := 404, statusText := "Not Found",
                 url := "https://deadhead.example/x" }, rfl, by decide, by decide⟩)).2.2
      { status := 200, statusText := "OK", url := "https://deadhead.example/x" }
      rfl (by decide) (by decide)
  · exact (C2_head_get_fallback testEnv {} ⟨"https://throws.example/y", 0⟩
      rfl (by decide) rfl (Or.inr ⟨"HEAD boom", rfl⟩)).2.1 "GET boom" rfl

/-- C3: for a relative URI with `checkRelative` enabled, the resolution base
is the configured base URI when truthy, else the linted file's path; when
neither is available, exactly one resolution-error diagnostic is emitted at
the occurrence's offset and neither the network nor the filesystem is ever
consulted. -/
theorem C3_relative_base (env : Env) (opts : LintConfig) (occ : Occurrence)
    (hRel : isRelative env occ.uri = true)
    (hChk : opts.checkRelative = true) :
    (∀ b, opts.baseURI = some b → b.isEmpty = false →
      relativeStep env opts occ.uri occ.index
        = ResolveOutcome.resolved (env.urlResolve b occ.uri))
    ∧ (jsTruthy opts.baseURI = false →
      ∀ f, env.filePath = some f → f.isEmpty = false →
      relativeStep env opts occ.uri occ.index
        = ResolveOutcome.resolved (env.urlResolve f occ.uri))
    ∧ (jsTruthy (jsOrStr opts.baseURI env.filePath) = false →
      isIgnored env occ.uri opts.ignore = false →
      ∀ net fileSystem,
        lintOne { env with net := net, fsAccess := fileSystem } opts occ
          = [{ message := unresolvedMessage, index := occ.index }]) := by
  refine ⟨?_, ?_, ?_⟩
  · intro b hb hbe
    refine relativeStep_resolves env opts occ.uri occ.index b hRel hChk ?_ hbe
    unfold jsOrStr jsTruthy
    simp [hb, hbe]
  · intro hfal f hf hfe
    refine relativeStep_resolves env opts occ.uri occ.index f hRel hChk ?_ hfe
    unfold jsOrStr
    simp [hfal, hf]
  · intro hbase hIgn net fileSystem
    have hIgn' : isIgnored { env with net := net, fsAccess := fileSystem }
        occ.uri opts.ignore = false := hIgn
    have hRel' : isRelative { env with net := net, fsAccess := fileSystem }
        occ.uri = true := hRel
    unfold lintOne relativeStep
    cases h : jsOrStr opts.baseURI env.filePath with
    | none => simp [hIgn', hRel', hChk, h]
    | some b =>
      have hbe : b.isEmpty = true := by
        rw [h] at hbase
        simpa [jsTruthy] using hbase
      simp [hIgn', hRel', hChk, h, hbe]

/-- C3 witness: with neither a base URI nor a file path, the occurrence at
offset 5 yields exactly the resolution-error diagnostic. -/
theorem C3_relative_base_witness :
    lintOne { testEnv with
      net := testEnv.net
      fsAccess := testEnv.fsAccess
      filePath := none } {} ⟨"./foo", 5⟩
      = [{ message := unresolvedMessage, index := 5 }] :=
  (C3_relative_base { testEnv with filePath := none } {} ⟨"./foo", 5⟩
    (by decide) rfl).2.2 rfl rfl testEnv.net testEnv.fsAccess

/-- C6: the probe method is HEAD by default and GET exactly when some
`preferGET` entry has the same origin as the URI; the origin of a URI
ignores its path and query; and a GET-first probe never consults the
network at method HEAD. -/
theorem C6_method_selection (preferGET : List String) (uri : String) :
    (selectMethod preferGET uri = Method.GET ↔
      ∃ p ∈ preferGET, getURLOrigin uri = getURLOrigin p)
    ∧ selectMethod [] uri = Method.HEAD
    ∧ (∀ scheme host : String, ∀ sep : Char, ∀ tail : List Char,
        '/' ∉ scheme.data → (∀ c ∈ host.data, hostEnd c = false) →
        hostEnd sep = true →
        getURLOrigin (String.mk (scheme.data ++ '/' :: '/' :: (host.data ++ sep :: tail)))
          = String.mk (scheme.data ++ '/' :: '/' :: host.data)
        ∧ getURLOrigin (String.mk (scheme.data ++ '/' :: '/' :: host.data))
          = String.mk (scheme.data ++ '/' :: '/' :: host.data))
    ∧ (∀ net1 net2 : Net,
        (∀ mode, net1 uri Method.GET mode = net2 uri Method.GET mode) →
        isAliveURI net1 uri Method.GET = isAliveURI net2 uri Method.GET) := by
  have key : (0 < (preferGET.filter
        (fun origin => getURLOrigin uri == getURLOrigin origin)).length) ↔
      ∃ p ∈ preferGET, getURLOrigin uri = getURLOrigin p := by
    rw [List.length_pos_iff_exists_mem]
    constructor
    · rintro ⟨a, ha⟩
      rcases List.mem_filter.mp ha with ⟨hmem, hpred⟩
      exact ⟨a, hmem, by simpa using hpred⟩
    · rintro ⟨p, hp, he⟩
      exact ⟨p, List.mem_filter.mpr ⟨hp, by simpa using he⟩⟩
  refine ⟨?_, rfl, ?_, ?_⟩
  · constructor
    · intro hsel
      unfold selectMethod at hsel
      split at hsel
      · next hpos => exact key.mp hpos
      · next => exact absurd hsel (by simp)
    · intro hex
      unfold selectMethod
      simp [key.mpr hex]
  · intro scheme host sep tail hsch hhost hsep
    have hsch' : ∀ c ∈ scheme.data, c ≠ '/' := fun c hc he => hsch (he ▸ hc)
    constructor
    · unfold getURLOrigin
      rw [show (String.mk (scheme.data ++ '/' :: '/' :: (host.data ++ sep :: tail))).data
            = scheme.data ++ '/' :: '/' :: (host.data ++ sep :: tail) from rfl]
      rw [splitOnSlashSlash_prepend scheme.data (host.data ++ sep :: tail) hsch']
      simp [takeWhile_host_append host.data sep tail hhost hsep]
    · unfold getURLOrigin
      rw [show (String.mk (scheme.data ++ '/' :: '/' :: host.data)).data
            = scheme.data ++ '/' :: '/' :: host.data from rfl]
      rw [splitOnSlashSlash_prepend scheme.data host.data hsch']
      simp [takeWhile_host_all host.data hhost]
  · intro net1 net2 hagree
    conv_lhs => rw [isAliveURI.eq_def]
    conv_rhs => rw [isAliveURI.eq_def]
    rw [hagree RedirectMode.manual, hagree RedirectMode.follow]
    simp

/-- C6 witness: with `preferGET = ["https://example.com"]`, the URI
`https://example.com/path` is probed with GET; with the default empty list
the method is HEAD. -/
theorem C6_method_selection_witness :
    selectMethod ["https://example.com"] "https://example.com/path" = Method.GET
    ∧ selectMethod [] "https://example.com/path" = Method.HEAD :=
  ⟨(C6_method_selection ["https://example.com"] "https://example.com/path").1.mpr
      ⟨"https://example.com", by simp, by decide⟩,
    (C6_method_selection [] "https://example.com/path").2.1⟩

/-- C9: a local URI is probed by one filesystem-access check on the path
with its query/fragment suffix stripped, with no retries and no network
activity: success reports nothing, failure reports a dead-link diagnostic
carrying the access error's text; and stripping removes everything from the
first `?` or `#`. -/
theorem C9_local_probe (env : Env) (opts : LintConfig) (occ : Occurrence) (u : String)
    (hIgn : isIgnored env occ.uri opts.ignore = false)
    (hRes : relativeStep env opts occ.uri occ.index = ResolveOutcome.resolved u)
    (hLoc : isLocal env u = true) :
    (env.fsAccess (stripQueryFragment u) = none → lintOne env opts occ = [])
    ∧ (∀ e, env.fsAccess (stripQueryFragment u) = some e →
        lintOne env opts occ
          = [{ message := u ++ " is dead. (" ++ e ++ ")", index := occ.index }])
    ∧ (∀ net1 net2 fs1 fs2, fs1 (stripQueryFragment u) = fs2 (stripQueryFragment u) →
        lintOne { env with net := net1, fsAccess := fs1 } opts occ
          = lintOne { env with net := net2, fsAccess := fs2 } opts occ)
    ∧ (∀ pre : List Char, ∀ sep : Char, ∀ tail : List Char,
        (∀ c ∈ pre, c ∉ (['?', '#'] : List Char)) → sep ∈ (['?', '#'] : List Char) →
        stripQueryFragment (String.mk (pre ++ sep :: tail)) = String.mk pre) := by
  refine ⟨?_, ?_, ?_, ?_⟩
  · intro hok
    rw [lintOne_resolvedLocal_eq env opts occ u hIgn hRes hLoc]
    unfold isAliveLocalFile
    rw [hok]
    rfl
  · intro e he
    rw [lintOne_resolvedLocal_eq env opts occ u hIgn hRes hLoc]
    unfold isAliveLocalFile
    rw [he]
    rfl
  · intro net1 net2 fs1 fs2 hfs
    have hIgn1 : isIgnored { env with net := net1, fsAccess := fs1 }
        occ.uri opts.ignore = false := hIgn
    have hIgn2 : isIgnored { env with net := net2, fsAccess := fs2 }
        occ.uri opts.ignore = false := hIgn
    have hRes1 : relativeStep { env with net := net1, fsAccess := fs1 }
        opts occ.uri occ.index = ResolveOutcome.resolved u := hRes
    have hRes2 : relativeStep { env with net := net2, fsAccess := fs2 }
        opts occ.uri occ.index = ResolveOutcome.resolved u := hRes
    have hLoc1 : isLocal { env with net := net1, fsAccess := fs1 } u = true := hLoc
    have hLoc2 : isLocal { env with net := net2, fsAccess := fs2 } u = true := hLoc
    rw [lintOne_resolvedLocal_eq _ opts occ u hIgn1 hRes1 hLoc1,
      lintOne_resolvedLocal_eq _ opts occ u hIgn2 hRes2 hLoc2]
    show reportResult (isAliveLocalFile fs1 u) u occ.index
      = reportResult (isAliveLocalFile fs2 u) u occ.index
    unfold isAliveLocalFile
    rw [hfs]
  · intro pre sep tail hpre hsep
    unfold stripQueryFragment
    rw [show (String.mk (pre ++ sep :: tail)).data = pre ++ sep :: tail from rfl]
    rw [takeUntil_append ['?', '#'] pre sep tail hpre hsep]

/-- C9 witness: a missing local file with a query suffix is reported dead
with the access error's text, from the stripped path. -/
theorem C9_local_probe_witness :
    lintOne testEnv {} ⟨"/missing/file?x=1", 2⟩
      = [{ message := "/missing/file?x=1 is dead. " ++
             "(ENOENT: no such file or directory, access /missing/file)",
           index := 2 }] := by
  have h := (C9_local_probe testEnv {} ⟨"/missing/file?x=1", 2⟩ "/missing/file?x=1"
      rfl rfl (by decide)).2.1
    "ENOENT: no such file or directory, access /missing/file" (by decide)
  exact h.trans (by decide)

/-- C10: once a relative URI is resolved against a base, all reporting uses
the resolved absolute URI: the dead and redirect messages name it, and the
redirect fix replaces the range starting at the occurrence's offset whose
length is the resolved URI's length (not the original text's). -/
theorem C10_resolved_uri_reporting (env : Env) (opts : LintConfig) (occ : Occurrence)
    (b : String)
    (hIgn : isIgnored env occ.uri opts.ignore = false)
    (hRel : isRelative env occ.uri = true)
    (hChk : opts.checkRelative = true)
    (hBase : jsOrStr opts.baseURI env.filePath = some b)
    (hb : b.isEmpty = false)
    (hLoc : isLocal env (env.urlResolve b occ.uri) = false) :
    (∀ r, isAliveURI env.net (env.urlResolve b occ.uri)
            (selectMethod opts.preferGET (env.urlResolve b occ.uri)) = r →
        r.ok = false →
        lintOne env opts occ
          = [{ message := env.urlResolve b occ.uri ++ " is dead. (" ++ r.message ++ ")",
               index := occ.index }])
    ∧ (∀ r, isAliveURI env.net (env.urlResolve b occ.uri)
            (selectMethod opts.preferGET (env.urlResolve b occ.uri)) = r →
        r.ok = true → r.redirected = true →
        lintOne env opts occ
          = [{ message := env.urlResolve b occ.uri ++ " is redirected to "
                 ++ r.redirectTo ++ ". (" ++ r.message ++ ")",
               index := occ.index,
               fix := some { rangeStart := occ.index,
                             rangeEnd := occ.index + ((env.urlResolve b occ.uri).length : Int),
                             text := r.redirectTo } }]) := by
  have hRes := relativeStep_resolves env opts occ.uri occ.index b hRel hChk hBase hb
  have hlint := lintOne_resolvedRemote_eq env opts occ (env.urlResolve b occ.uri)
    hIgn hRes hLoc
  constructor
  · intro r hr hdead
    rw [hlint, hr]
    unfold reportResult
    simp [hdead]
  · intro r hr hok hredir
    rw [hlint, hr]
    unfold reportResult
    simp [hok, hredir]

/-- C10 witness: `./foo` resolved against the configured base redirects; the
diagnostic names the resolved URI and its fix range spans the resolved
URI's length (26, different from the original text's 5). -/
theorem C10_resolved_uri_reporting_witness :
    ("https://base.example/./foo" : String).length ≠ ("./foo" : String).length
    ∧ lintOne testEnv { baseURI := some "https://base.example/" } ⟨"./foo", 4⟩
        = [{ message := "https://base.example/./foo is redirected to " ++
               "https://final.example/b. (301 Moved Permanently)",
             index := 4,
             fix := some { rangeStart := 4, rangeEnd := 30,
                           text := "https://final.example/b" } }] := by
  have halive : isAliveURI testEnv.net "https://base.example/./foo" Method.HEAD
      = { ok := true, redirected := true, redirectTo := "https://final.example/b",
          message := "301 Moved Permanently" } := by
    have h := aliveURI_redirect_eq testEnv.net "https://base.example/./foo" Method.HEAD
      { status := 301, statusText := "Moved Permanently", url := "https://base.example/./foo" }
      { status := 200, statusText := "OK", url := "https://final.example/b" }
      rfl (by decide) rfl
    exact h.trans (by decide)
  refine ⟨by decide, ?_⟩
  have h := (C10_resolved_uri_reporting testEnv { baseURI := some "https://base.example/" }
      ⟨"./foo", 4⟩ "https://base.example/" rfl (by decide) rfl rfl (by decide) (by decide)).2
    { ok := true, redirected := true, redirectTo := "https://final.example/b",
      message := "301 Moved Permanently" }
    halive rfl rfl
  exact h.trans (by decide)

end NoDeadLink
